import Mathlib

/-!
Verification of the Policy-to-Task Pipeline of the
ai-policy-execution-platform repository.

The task lifecycle state machine is embedded from
`executionFlow.js` (STATES / TRANSITIONS / isValidTransition), the
audit log from `auditLogger.js` (logAction / getAuditLogs), and the
escalation target computation from the frontend component
`RoleBasedTasks.tsx` (renderActionButtons).  The HTTP-level operations
of the execution backend (task generation, status update, escalation,
clarification merge) exist in the repository only as API clients and
README contracts; they are modelled here from the specification and
are marked as such in their doc comments.
-/

namespace PolicyExec

/-- The five task statuses, from the STATES object of executionFlow.js. -/
inductive Status where
  | CREATED
  | ASSIGNED
  | IN_PROGRESS
  | COMPLETED
  | ESCALATED
deriving DecidableEq, Repr

/-- The string value attached to each status in the STATES object. -/
def Status.str : Status → String
  | .CREATED => "CREATED"
  | .ASSIGNED => "ASSIGNED"
  | .IN_PROGRESS => "IN_PROGRESS"
  | .COMPLETED => "COMPLETED"
  | .ESCALATED => "ESCALATED"

/-- All five statuses. -/
def statusList : List Status :=
  [.CREATED, .ASSIGNED, .IN_PROGRESS, .COMPLETED, .ESCALATED]

/-- The TRANSITIONS table of executionFlow.js, keyed by source status. -/
def TRANSITIONS : Status → List Status
  | .CREATED => [.ASSIGNED]
  | .ASSIGNED => [.IN_PROGRESS]
  | .IN_PROGRESS => [.COMPLETED, .ESCALATED]
  | .ESCALATED => [.ASSIGNED]
  | .COMPLETED => []

/-- isValidTransition of executionFlow.js, on the status enumeration:
TRANSITIONS[currentState].includes(nextState). -/
def isValidTransition (currentState nextState : Status) : Bool :=
  (TRANSITIONS currentState).contains nextState

/-- The property names every JavaScript object literal inherits from
Object.prototype: the six standard methods, the constructor, and the
legacy accessor properties. -/
def objectProtoProps : List String :=
  ["constructor", "hasOwnProperty", "isPrototypeOf",
   "propertyIsEnumerable", "toLocaleString", "toString", "valueOf",
   "__defineGetter__", "__defineSetter__", "__lookupGetter__",
   "__lookupSetter__", "__proto__"]

/-- The outcome of the JavaScript property read
`TRANSITIONS[currentState]` on the object literal of
executionFlow.js: an own property holding a target array, a value
inherited from Object.prototype (a function or the prototype object,
never an array), or undefined. -/
inductive LookupResult where
  | ownArray (targets : List String)
  | inherited
  | absent
deriving DecidableEq, Repr

/-- The TRANSITIONS object of executionFlow.js viewed as a JavaScript
property lookup on an arbitrary string key: the five defined keys are
own properties holding their target lists; a key naming an
Object.prototype property resolves through the prototype chain to a
non-undefined, non-array value; every other key is undefined. -/
def TRANSITIONS_lookup (s : String) : LookupResult :=
  if s = "CREATED" then .ownArray ["ASSIGNED"]
  else if s = "ASSIGNED" then .ownArray ["IN_PROGRESS"]
  else if s = "IN_PROGRESS" then .ownArray ["COMPLETED", "ESCALATED"]
  else if s = "ESCALATED" then .ownArray ["ASSIGNED"]
  else if s = "COMPLETED" then .ownArray []
  else if s ∈ objectProtoProps then .inherited
  else .absent

/-- isValidTransition of executionFlow.js at string level:
`TRANSITIONS[currentState]?.includes(nextState)`.  An own array key
evaluates `includes`, embedded as `some` of the membership test.  An
undefined lookup short-circuits the optional chaining to undefined —
falsy, embedded as `some false`.  A prototype-inherited value is
neither null nor undefined, so the chaining proceeds: `.includes` on a
function or on Object.prototype is undefined, and calling it throws a
TypeError, embedded as `none`. -/
def isValidTransitionStr (currentState nextState : String) :
    Option Bool :=
  match TRANSITIONS_lookup currentState with
  | .ownArray targets => some (targets.contains nextState)
  | .inherited => none
  | .absent => some false

/-- The escalation target computation of RoleBasedTasks.tsx:
`const nextRole = task.role === 'Clerk' ? 'Officer' : 'Admin'`. -/
def nextRole (role : String) : String :=
  if role = "Clerk" then "Officer" else "Admin"

/-- An audit log entry, from the object literal built by logAction in
auditLogger.js.  The ISO timestamp string is abstracted to a natural
number drawn from a monotone clock. -/
structure AuditLogEntry where
  task_id : String
  action : String
  performed_by_role : String
  timestamp : Nat
deriving DecidableEq, Repr

/-- logAction of auditLogger.js: `auditLogs.push(logEntry)` appends the
new entry at the end of the array. -/
def logAction (log : List AuditLogEntry) (entry : AuditLogEntry) :
    List AuditLogEntry :=
  log ++ [entry]

/-- getAuditLogs of auditLogger.js: returns the array as it stands,
in insertion order. -/
def getAuditLogs (log : List AuditLogEntry) : List AuditLogEntry :=
  log

/-- An extracted policy rule, from the NLPRule interface of the
frontend API layer (lib/api.ts) together with the deadline field of
the backend ingestion schema. -/
structure Rule where
  rule_id : String
  action : String
  conditions : List String
  responsible_role : String
  ambiguity_flag : Bool
  ambiguity_reason : String
  deadline : Option String
deriving DecidableEq, Repr

/-- A policy with its extracted rules, from the NLPResponse interface
of lib/api.ts and the backend `policies` collection. -/
structure Policy where
  policy_id : String
  rules : List Rule
deriving DecidableEq, Repr

/-- A task, from the BackendTask interface of lib/api.ts and the
backend `tasks` collection. -/
structure Task where
  task_id : String
  policy_id : String
  rule_id : String
  task_name : String
  assigned_role : String
  status : Status
  deadline : Option String
  escalated_to : Option String
deriving DecidableEq, Repr

/-- A clarification request, from the ClarificationData interface of
lib/api.ts.  The optional fields carry `none` when the human supplied
no value. -/
structure ClarificationData where
  policy_id : String
  rule_id : String
  clarified_responsible_role : String
  clarified_deadline : Option String
  clarified_conditions : Option (List String)
deriving DecidableEq, Repr

/-- The shared mutable state of the pipeline: the rule store, the task
store, the audit log, and a clock supplying timestamps. -/
structure SystemState where
  policies : List Policy
  tasks : List Task
  auditLogs : List AuditLogEntry
  clock : Nat
deriving DecidableEq, Repr

/-- The empty initial state. -/
def initState : SystemState :=
  { policies := [], tasks := [], auditLogs := [], clock := 0 }

/-- The error taxonomy of the specification (§7). -/
inductive PipelineError where
  | NotFound
  | RuleNotFound
  | InvalidTransition (current requested : String)
  | UnauthorizedRole
  | AlreadyResolvedConflict
  | PolicyStillAmbiguous (unresolved : List String)
deriving DecidableEq, Repr

/-- True when an operation result is a success. -/
def isOkResult {α : Type} (r : Except PipelineError α) : Bool :=
  match r with
  | .ok _ => true
  | .error _ => false

/-- Rule lookup: first policy with the identifier, then first rule
with the identifier, as in the Rule Store contract (§4.1). -/
def findRule (ps : List Policy) (pid rid : String) : Option Rule :=
  match ps.find? (fun p => p.policy_id = pid) with
  | none => none
  | some p => p.rules.find? (fun r => r.rule_id = rid)

/-- Replace, inside the policy `pid`, every rule whose identifier is
`rid` by `r'`, leaving everything else untouched. -/
def updateRuleIn (ps : List Policy) (pid rid : String) (r' : Rule) :
    List Policy :=
  ps.map (fun p =>
    if p.policy_id = pid then
      { p with rules := p.rules.map (fun r => if r.rule_id = rid then r' else r) }
    else p)

/-- The merged rule produced by a clarification (§4.2): responsible
role set, deadline and conditions overwritten only when supplied,
ambiguity flag cleared, ambiguity reason cleared. -/
def clarifiedRule (r : Rule) (c : ClarificationData) : Rule :=
  { r with
    responsible_role := c.clarified_responsible_role
    deadline := match c.clarified_deadline with
      | none => r.deadline
      | some d => some d
    conditions := match c.clarified_conditions with
      | none => r.conditions
      | some cs => cs
    ambiguity_flag := false
    ambiguity_reason := "" }

/-- True when the incoming clarification values are identical to the
values already stored on the rule; unsupplied optional fields match
anything (§4.2 idempotent-retry case). -/
def matchesStored (r : Rule) (c : ClarificationData) : Bool :=
  r.responsible_role = c.clarified_responsible_role &&
  (match c.clarified_deadline with
    | none => true
    | some d => r.deadline = some d) &&
  (match c.clarified_conditions with
    | none => true
    | some cs => r.conditions = cs)

/-- Modelled from the spec: applyClarification of the Clarification
Merge Engine (§4.2); the NLP backend route POST /api/policy/clarify is
absent from src/, only its client (lib/api.ts clarifyPolicy) and the
README contract are present.  Look up the rule; RuleNotFound when
absent; idempotent success when already resolved with matching values;
AlreadyResolvedConflict when already resolved with different values;
otherwise merge, clear the ambiguity flag and append one CLARIFIED
audit entry via logAction. -/
def applyClarification (c : ClarificationData) (s : SystemState) :
    Except PipelineError (Rule × SystemState) :=
  match findRule s.policies c.policy_id c.rule_id with
  | none => .error .RuleNotFound
  | some r =>
    if r.ambiguity_flag then
      let r' := clarifiedRule r c
      .ok (r', { s with
        policies := updateRuleIn s.policies c.policy_id c.rule_id r'
        auditLogs := logAction s.auditLogs
          { task_id := c.policy_id, action := "CLARIFIED",
            performed_by_role := c.clarified_responsible_role,
            timestamp := s.clock }
        clock := s.clock + 1 })
    else
      if matchesStored r c then .ok (r, s)
      else .error .AlreadyResolvedConflict

/-- Run a clarification for its state effect; a failed request leaves
the state unchanged (§7 propagation policy). -/
def runClarify (s : SystemState) (c : ClarificationData) : SystemState :=
  match applyClarification c s with
  | .ok (_, s') => s'
  | .error _ => s

/-- True when a task has already been generated for the given rule of
the given policy (§4.3 idempotence bookkeeping). -/
def taskExists (s : SystemState) (pid rid : String) : Bool :=
  s.tasks.any (fun t => t.policy_id = pid && t.rule_id = rid)

/-- The task generated from one finalized rule: status CREATED,
assigned role and deadline copied from the rule, name as in the
execution backend README ("Execute rule R1"). -/
def mkTask (pid : String) (r : Rule) (id : String) : Task :=
  { task_id := id
    policy_id := pid
    rule_id := r.rule_id
    task_name := "Execute rule " ++ r.rule_id
    assigned_role := r.responsible_role
    status := .CREATED
    deadline := r.deadline
    escalated_to := none }

/-- The rules of policy `pid` that do not yet have a task. -/
def pendingRules (s : SystemState) (pid : String) : List Rule :=
  match s.policies.find? (fun p => p.policy_id = pid) with
  | none => []
  | some p => p.rules.filter (fun r => !taskExists s pid r.rule_id)

/-- The tasks a successful generation run creates: one per pending
rule, paired with the supplied fresh identifiers. -/
def newTasksOf (s : SystemState) (pid : String) (ids : List String) :
    List Task :=
  ((pendingRules s pid).zip ids).map (fun q => mkTask pid q.1 q.2)

/-- The audit entries a successful generation run appends: one CREATED
entry per generated task (§4.3 side effect). -/
def newEntriesOf (s : SystemState) (pid : String) (ids : List String) :
    List AuditLogEntry :=
  (newTasksOf s pid ids).map (fun t =>
    { task_id := t.task_id, action := "CREATED",
      performed_by_role := t.assigned_role, timestamp := s.clock })

/-- Modelled from the spec: generateTasks of the Task Generator
(§4.3); the execution backend route POST /policies/ingest /
"finalize" is absent from src/, only its clients and README are
present.  Fails with PolicyStillAmbiguous naming the unresolved rule
identifiers when any rule still has its ambiguity flag set; otherwise
creates one CREATED task per rule that has none yet, pairing the
pending rules with the caller-supplied fresh identifiers, and appends
one CREATED audit entry per generated task. -/
def generateTasks (s : SystemState) (pid : String) (ids : List String) :
    Except PipelineError (List Task × SystemState) :=
  match s.policies.find? (fun p => p.policy_id = pid) with
  | none => .error .NotFound
  | some p =>
    let unresolved := (p.rules.filter (fun r => r.ambiguity_flag)).map Rule.rule_id
    if unresolved.isEmpty then
      .ok (newTasksOf s pid ids, { s with
        tasks := s.tasks ++ newTasksOf s pid ids
        auditLogs := s.auditLogs ++ newEntriesOf s pid ids
        clock := s.clock + 1 })
    else
      .error (.PolicyStillAmbiguous unresolved)

/-- Run a generation request for its state effect; a failed request
leaves the state unchanged and creates no task. -/
def runGen (s : SystemState) (pid : String) (ids : List String) :
    SystemState :=
  match generateTasks s pid ids with
  | .ok (_, s') => s'
  | .error _ => s

/-- The role authorized to act on a task: the assigned role, or the
escalated-to role while the task sits in ESCALATED (§4.4). -/
def requiredRole (t : Task) : String :=
  match t.status, t.escalated_to with
  | .ESCALATED, some r => r
  | _, _ => t.assigned_role

/-- Replace every task with identifier `tid` by its image under `f`. -/
def replaceTask (ts : List Task) (tid : String) (f : Task → Task) :
    List Task :=
  ts.map (fun u => if u.task_id = tid then f u else u)

/-- Modelled from the spec: the transition operation of the Task State
Machine (§4.4); the execution backend route
POST /tasks/:id/update-status is absent from src/, only its clients
(api.ts updateTaskStatus) and README are present.  The transition is
validated against the TRANSITIONS table of executionFlow.js; an
invalid pair fails with InvalidTransition naming the current and the
requested status; an acting role different from the required role
fails with UnauthorizedRole; on success the status is updated and one
STATUS_UPDATE audit entry is appended via logAction. -/
def updateStatus (s : SystemState) (tid : String) (target : Status)
    (actingRole : String) : Except PipelineError SystemState :=
  match s.tasks.find? (fun t => t.task_id = tid) with
  | none => .error .NotFound
  | some t =>
    if isValidTransition t.status target then
      if requiredRole t = actingRole then
        .ok { s with
          tasks := replaceTask s.tasks tid (fun u => { u with status := target })
          auditLogs := logAction s.auditLogs
            { task_id := tid
              action := "STATUS_UPDATE: " ++ t.status.str ++ " -> " ++ target.str
              performed_by_role := actingRole
              timestamp := s.clock }
          clock := s.clock + 1 }
      else .error .UnauthorizedRole
    else .error (.InvalidTransition t.status.str target.str)

/-- Run a status update for its state effect; a failed request leaves
the state, and in particular the audit log, unchanged. -/
def runUpdate (s : SystemState) (tid : String) (target : Status)
    (actingRole : String) : SystemState :=
  match updateStatus s tid target actingRole with
  | .ok s' => s'
  | .error _ => s

/-- Modelled from the spec: the escalate operation (§4.4 escalation
contract); the execution backend route POST /tasks/:id/escalate is
absent from src/, only its clients and README are present.  The
target role is computed by the nextRole ternary of RoleBasedTasks.tsx;
the status guard reuses the IN_PROGRESS -> ESCALATED edge of
executionFlow.js; on success the status becomes ESCALATED, the target
role is recorded as both escalated_to and the new assigned role, and
one "ESCALATED to <role>" audit entry is appended via logAction. -/
def escalateTask (s : SystemState) (tid : String) :
    Except PipelineError SystemState :=
  match s.tasks.find? (fun t => t.task_id = tid) with
  | none => .error .NotFound
  | some t =>
    if isValidTransition t.status .ESCALATED then
      let target := nextRole t.assigned_role
      .ok { s with
        tasks := replaceTask s.tasks tid (fun u =>
          { u with status := .ESCALATED, assigned_role := target,
                   escalated_to := some target })
        auditLogs := logAction s.auditLogs
          { task_id := tid
            action := "ESCALATED to " ++ target
            performed_by_role := target
            timestamp := s.clock }
        clock := s.clock + 1 }
    else .error (.InvalidTransition t.status.str Status.ESCALATED.str)

/-- Run an escalation for its state effect; a failed request leaves
the state unchanged. -/
def runEsc (s : SystemState) (tid : String) : SystemState :=
  match escalateTask s tid with
  | .ok s' => s'
  | .error _ => s

/-- Policy ingestion from the extraction collaborator (§6): the policy
is added to the rule store. -/
def ingestPolicy (s : SystemState) (p : Policy) : SystemState :=
  { s with policies := s.policies ++ [p] }

/-- The ambiguity gate of handleSubmit in ReviewInteractive.tsx:
submission proceeds only when the ambiguity list is empty
(`if (ambiguities.length > 0) ... return`). -/
def submitAllowed (ambiguities : List String) : Bool :=
  ambiguities.length == 0

/-- Character-level test that `pat` opens `s`. -/
def strStarts (pat s : String) : Bool :=
  s.data.take pat.data.length = pat.data

/-- Character-level test that `pat` closes `s`. -/
def strEnds (pat s : String) : Bool :=
  s.data.drop (s.data.length - pat.data.length) = pat.data

/-- Modelled from the spec: the dashboard-side reconstruction of a
task's status history from audit entry action texts (§4.5 says
dashboards must be able to reconstruct task history purely from the
log; no reconstruction code is in src/).  "CREATED" records CREATED,
"ESCALATED to <role>" records ESCALATED, "STATUS_UPDATE: <old> ->
<new>" records the new status, and any other action (such as
"CLARIFIED") records no status. -/
def observedOfAction (a : String) : Option Status :=
  if a = "CREATED" then some .CREATED
  else if strStarts "ESCALATED to " a then some .ESCALATED
  else if strStarts "STATUS_UPDATE: " a then
    statusList.find? (fun st => strEnds (" -> " ++ st.str) a)
  else none

/-- The sequence of statuses recorded for task `id` by the audit log,
in insertion order. -/
def taskTrace (id : String) (log : List AuditLogEntry) : List Status :=
  log.filterMap (fun e =>
    if e.task_id = id then observedOfAction e.action else none)

/-- True when every consecutive pair of the list is an edge of the
TRANSITIONS table. -/
def chainOk : List Status → Bool
  | [] => true
  | [_] => true
  | a :: b :: rest => isValidTransition a b && chainOk (b :: rest)

/-- One observable operation of the pipeline.  The gen constructor
carries the environmental guarantees on the freshly generated task
identifiers: the spec requires them unique across the whole system
(§4.3), which the backend realizes with UUIDs. -/
inductive Step : SystemState → SystemState → Prop where
  | ingest (s : SystemState) (p : Policy) : Step s (ingestPolicy s p)
  | clarify (s : SystemState) (c : ClarificationData) : Step s (runClarify s c)
  | gen (s : SystemState) (pid : String) (ids : List String)
      (hnodup : ids.Nodup)
      (hfresh : ∀ id ∈ ids, ∀ t ∈ s.tasks, t.task_id ≠ id)
      (hlen : (pendingRules s pid).length = ids.length) :
      Step s (runGen s pid ids)
  | update (s : SystemState) (tid : String) (target : Status) (role : String) :
      Step s (runUpdate s tid target role)
  | escalate (s : SystemState) (tid : String) : Step s (runEsc s tid)
  | query (s : SystemState) : Step s s

/-- States reachable from the empty initial state by pipeline steps. -/
inductive Reachable : SystemState → Prop where
  | init : Reachable initState
  | step {s s' : SystemState} : Reachable s → Step s s' → Reachable s'

/-- The audit-walk property of one task: its recorded status sequence
starts at CREATED, follows the TRANSITIONS table, and ends at the
task's current status. -/
def TraceOk (s : SystemState) (t : Task) : Prop :=
  (taskTrace t.task_id s.auditLogs).head? = some Status.CREATED ∧
  chainOk (taskTrace t.task_id s.auditLogs) = true ∧
  (taskTrace t.task_id s.auditLogs).getLast? = some t.status

/-- The pipeline invariant: task identifiers are unique, every task's
recorded history is a valid walk ending at its current status, and
identifiers without a task have no recorded history. -/
def Inv (s : SystemState) : Prop :=
  (s.tasks.map Task.task_id).Nodup ∧
  (∀ t ∈ s.tasks, TraceOk s t) ∧
  (∀ id : String, (∀ t ∈ s.tasks, t.task_id ≠ id) →
    taskTrace id s.auditLogs = [])

theorem obs_CREATED : observedOfAction "CREATED" = some Status.CREATED := by decide

theorem obs_CLARIFIED : observedOfAction "CLARIFIED" = none := by decide

theorem obs_statusUpdate (a b : Status) :
    observedOfAction ("STATUS_UPDATE: " ++ a.str ++ " -> " ++ b.str) = some b := by
  cases a <;> cases b <;> decide

theorem obs_escalated (r : String) :
    observedOfAction ("ESCALATED to " ++ r) = some Status.ESCALATED := by
  have hne : ("ESCALATED to " ++ r) ≠ "CREATED" := by
    intro h
    have := congrArg (fun s => s.data.length) h
    simp [String.data_append] at this
  have hst : strStarts "ESCALATED to " ("ESCALATED to " ++ r) = true := by
    simp [strStarts, String.data_append, List.take_left]
  simp [observedOfAction, hne, hst]

theorem taskTrace_append (id : String) (l l' : List AuditLogEntry) :
    taskTrace id (l ++ l') = taskTrace id l ++ taskTrace id l' :=
  List.filterMap_append l l' _

theorem taskTrace_logAction_ne (id : String) (log : List AuditLogEntry)
    (e : AuditLogEntry) (h : e.task_id ≠ id) :
    taskTrace id (logAction log e) = taskTrace id log := by
  rw [logAction, taskTrace_append]
  simp [taskTrace, List.filterMap, h]

theorem taskTrace_logAction_none (id : String) (log : List AuditLogEntry)
    (e : AuditLogEntry) (h : observedOfAction e.action = none) :
    taskTrace id (logAction log e) = taskTrace id log := by
  rw [logAction, taskTrace_append]
  by_cases hid : e.task_id = id <;> simp [taskTrace, List.filterMap, hid, h]

theorem taskTrace_logAction_some (id : String) (log : List AuditLogEntry)
    (e : AuditLogEntry) (st : Status) (hid : e.task_id = id)
    (h : observedOfAction e.action = some st) :
    taskTrace id (logAction log e) = taskTrace id log ++ [st] := by
  rw [logAction, taskTrace_append]
  simp [taskTrace, List.filterMap, hid, h]

theorem chainOk_singleton (a : Status) : chainOk [a] = true := rfl

theorem chainOk_concat {l : List Status} {a b : Status}
    (hc : chainOk l = true) (hl : l.getLast? = some a)
    (hv : isValidTransition a b = true) : chainOk (l ++ [b]) = true := by
  induction l with
  | nil => simp at hl
  | cons x xs ih =>
    cases xs with
    | nil =>
      simp at hl
      subst hl
      simpa [chainOk] using hv
    | cons y ys =>
      rw [List.getLast?_cons_cons] at hl
      rw [chainOk] at hc
      rw [Bool.and_eq_true] at hc
      have := ih hc.2 hl
      simpa [chainOk, List.cons_append] using And.intro hc.1 this

theorem head?_append_some {l : List Status} {a : Status}
    (h : l.head? = some a) (l' : List Status) : (l ++ l').head? = some a := by
  cases l with
  | nil => simp at h
  | cons x xs => simpa using h

theorem find?_replaceTask (ts : List Task) (tid : String) (f : Task → Task)
    (hf : ∀ u, (f u).task_id = u.task_id) :
    (replaceTask ts tid f).find? (fun u => u.task_id = tid) =
      (ts.find? (fun u => u.task_id = tid)).map f := by
  induction ts with
  | nil => rfl
  | cons u ts ih =>
    by_cases h : u.task_id = tid
    · simp [replaceTask, List.find?_cons, h, hf u]
    · simp only [replaceTask, List.map_cons] at ih ⊢
      rw [if_neg h]
      rw [List.find?_cons_of_neg, List.find?_cons_of_neg, ih]
      · simpa using h
      · simpa using h

theorem map_id_replaceTask (ts : List Task) (tid : String) (f : Task → Task)
    (hf : ∀ u, (f u).task_id = u.task_id) :
    (replaceTask ts tid f).map Task.task_id = ts.map Task.task_id := by
  induction ts with
  | nil => rfl
  | cons u ts ih =>
    by_cases h : u.task_id = tid <;>
      simp [replaceTask, h, hf u] at ih ⊢ <;> exact ih

theorem task_eq_of_id_eq {ts : List Task}
    (hnd : (ts.map Task.task_id).Nodup) {u v : Task}
    (hu : u ∈ ts) (hv : v ∈ ts) (h : u.task_id = v.task_id) : u = v :=
  List.inj_on_of_nodup_map hnd hu hv h

theorem filter_id_eq_single {ts : List Task}
    (hnd : (ts.map Task.task_id).Nodup) {t : Task} (ht : t ∈ ts) :
    ts.filter (fun u => u.task_id = t.task_id) = [t] := by
  induction ts with
  | nil => cases ht
  | cons u ts ih =>
    simp only [List.map_cons, List.nodup_cons] at hnd
    rcases List.mem_cons.mp ht with rfl | ht'
    · have hnone : ts.filter (fun u => u.task_id = t.task_id) = [] := by
        rw [List.filter_eq_nil_iff]
        intro a ha
        simp only [decide_eq_true_eq]
        intro hcontra
        exact hnd.1 (hcontra ▸ List.mem_map_of_mem Task.task_id ha)
      simp [List.filter_cons, hnone]
    · have hne : u.task_id ≠ t.task_id := by
        intro hcontra
        exact hnd.1 (hcontra ▸ List.mem_map_of_mem Task.task_id ht')
      simp only [List.filter_cons, decide_eq_true_eq, hne, if_neg, ite_false]
      exact ih hnd.2 ht'

theorem taskTrace_createdEntries (ts : List Task) (c : Nat) (id : String) :
    taskTrace id (ts.map (fun t =>
      { task_id := t.task_id, action := "CREATED",
        performed_by_role := t.assigned_role, timestamp := c })) =
      (ts.filter (fun t => t.task_id = id)).map (fun _ => Status.CREATED) := by
  induction ts with
  | nil => rfl
  | cons t ts ih =>
    by_cases h : t.task_id = id <;>
      simp [taskTrace, List.filterMap_cons, List.filter_cons, h, obs_CREATED] at ih ⊢ <;>
      exact ih

theorem map_id_newTasksOf (s : SystemState) (pid : String) (ids : List String)
    (hlen : (pendingRules s pid).length = ids.length) :
    (newTasksOf s pid ids).map Task.task_id = ids := by
  rw [newTasksOf, List.map_map]
  have : (Task.task_id ∘ fun q : Rule × String => mkTask pid q.1 q.2) = Prod.snd := by
    funext q
    rfl
  rw [this]
  exact List.map_snd_zip _ _ hlen.ge

theorem status_of_mem_newTasksOf {s : SystemState} {pid : String}
    {ids : List String} {t : Task} (h : t ∈ newTasksOf s pid ids) :
    t.status = Status.CREATED := by
  rw [newTasksOf] at h
  obtain ⟨q, _, rfl⟩ := List.mem_map.mp h
  rfl

theorem runClarify_cases (s : SystemState) (c : ClarificationData) :
    runClarify s c = s ∨
    ∃ ps', runClarify s c =
      { s with
        policies := ps'
        auditLogs := logAction s.auditLogs
          { task_id := c.policy_id, action := "CLARIFIED",
            performed_by_role := c.clarified_responsible_role,
            timestamp := s.clock }
        clock := s.clock + 1 } := by
  unfold runClarify applyClarification
  cases hf : findRule s.policies c.policy_id c.rule_id with
  | none => left; rfl
  | some r =>
    by_cases hflag : r.ambiguity_flag
    · right
      refine ⟨updateRuleIn s.policies c.policy_id c.rule_id (clarifiedRule r c), ?_⟩
      simp [hflag, logAction]
    · by_cases hm : matchesStored r c
      · left; simp [hflag, hm]
      · left; simp [hflag, hm]

theorem runUpdate_cases (s : SystemState) (tid : String) (target : Status)
    (role : String) :
    runUpdate s tid target role = s ∨
    ∃ t, s.tasks.find? (fun u => u.task_id = tid) = some t ∧
      isValidTransition t.status target = true ∧
      runUpdate s tid target role =
        { s with
          tasks := replaceTask s.tasks tid (fun u => { u with status := target })
          auditLogs := logAction s.auditLogs
            { task_id := tid
              action := "STATUS_UPDATE: " ++ t.status.str ++ " -> " ++ target.str
              performed_by_role := role, timestamp := s.clock }
          clock := s.clock + 1 } := by
  unfold runUpdate updateStatus
  cases hf : s.tasks.find? (fun u => u.task_id = tid) with
  | none => left; rfl
  | some t =>
    by_cases hv : isValidTransition t.status target
    · by_cases hr : requiredRole t = role
      · right; exact ⟨t, rfl, hv, by simp [hv, hr]⟩
      · left; simp [hv, hr]
    · left; simp [hv]

theorem runEsc_cases (s : SystemState) (tid : String) :
    runEsc s tid = s ∨
    ∃ t, s.tasks.find? (fun u => u.task_id = tid) = some t ∧
      isValidTransition t.status .ESCALATED = true ∧
      runEsc s tid =
        { s with
          tasks := replaceTask s.tasks tid (fun u =>
            { u with status := .ESCALATED,
                     assigned_role := nextRole t.assigned_role,
                     escalated_to := some (nextRole t.assigned_role) })
          auditLogs := logAction s.auditLogs
            { task_id := tid
              action := "ESCALATED to " ++ nextRole t.assigned_role
              performed_by_role := nextRole t.assigned_role
              timestamp := s.clock }
          clock := s.clock + 1 } := by
  unfold runEsc escalateTask
  cases hf : s.tasks.find? (fun u => u.task_id = tid) with
  | none => left; rfl
  | some t =>
    by_cases hv : isValidTransition t.status .ESCALATED
    · right; exact ⟨t, rfl, hv, by simp [hv]⟩
    · left; simp [hv]

theorem runGen_cases (s : SystemState) (pid : String) (ids : List String) :
    runGen s pid ids = s ∨
    runGen s pid ids =
      { s with
        tasks := s.tasks ++ newTasksOf s pid ids
        auditLogs := s.auditLogs ++ newEntriesOf s pid ids
        clock := s.clock + 1 } := by
  unfold runGen generateTasks
  cases hf : s.policies.find? (fun p => p.policy_id = pid) with
  | none => left; rfl
  | some p =>
    by_cases ha : ((p.rules.filter (fun r => r.ambiguity_flag)).map Rule.rule_id).isEmpty
    · right; simp [ha]
    · left; simp [ha]

theorem Inv_initState : Inv initState := by
  refine ⟨?_, ?_, ?_⟩ <;> simp [initState, taskTrace]

theorem Inv_ingest {s : SystemState} (h : Inv s) (p : Policy) :
    Inv (ingestPolicy s p) :=
  h

theorem Inv_runClarify {s : SystemState} (h : Inv s) (c : ClarificationData) :
    Inv (runClarify s c) := by
  rcases runClarify_cases s c with he | ⟨ps', he⟩
  · rw [he]; exact h
  · rw [he]
    obtain ⟨hnd, htr, hout⟩ := h
    refine ⟨hnd, ?_, ?_⟩
    · intro t ht
      obtain ⟨h1, h2, h3⟩ := htr t ht
      have heq := taskTrace_logAction_none t.task_id s.auditLogs
        { task_id := c.policy_id, action := "CLARIFIED",
          performed_by_role := c.clarified_responsible_role,
          timestamp := s.clock } obs_CLARIFIED
      refine ⟨?_, ?_, ?_⟩ <;> dsimp only <;> rw [heq]
      · exact h1
      · exact h2
      · exact h3
    · intro id hid
      dsimp only at hid ⊢
      have heq := taskTrace_logAction_none id s.auditLogs
        { task_id := c.policy_id, action := "CLARIFIED",
          performed_by_role := c.clarified_responsible_role,
          timestamp := s.clock } obs_CLARIFIED
      rw [heq]
      exact hout id hid

theorem Inv_runUpdate {s : SystemState} (h : Inv s) (tid : String)
    (target : Status) (role : String) : Inv (runUpdate s tid target role) := by
  rcases runUpdate_cases s tid target role with he | ⟨t, hfind, hval, he⟩
  · rw [he]; exact h
  · rw [he]
    obtain ⟨hnd, htr, hout⟩ := h
    have ht : t ∈ s.tasks := List.mem_of_find?_eq_some hfind
    have htid : t.task_id = tid := by
      have := List.find?_some hfind
      simpa using this
    refine ⟨?_, ?_, ?_⟩
    · dsimp only
      rw [map_id_replaceTask s.tasks tid (fun u => { u with status := target })
        (fun u => rfl)]
      exact hnd
    · intro u' hu'
      dsimp only at hu'
      rw [replaceTask] at hu'
      obtain ⟨u, hu, rfl⟩ := List.mem_map.mp hu'
      obtain ⟨h1, h2, h3⟩ := htr u hu
      by_cases hid : u.task_id = tid
      · have hut : u = t := task_eq_of_id_eq hnd hu ht (by rw [hid, htid])
        have heq : taskTrace u.task_id (logAction s.auditLogs
            { task_id := tid
              action := "STATUS_UPDATE: " ++ t.status.str ++ " -> " ++ target.str
              performed_by_role := role, timestamp := s.clock }) =
            taskTrace u.task_id s.auditLogs ++ [target] := by
          apply taskTrace_logAction_some
          · exact hid.symm
          · exact obs_statusUpdate t.status target
        rw [if_pos hid]
        refine ⟨?_, ?_, ?_⟩ <;> dsimp only <;> rw [heq]
        · exact head?_append_some h1 _
        · exact chainOk_concat h2 h3 (hut ▸ hval)
        · exact List.getLast?_concat _
      · have heq : taskTrace u.task_id (logAction s.auditLogs
            { task_id := tid
              action := "STATUS_UPDATE: " ++ t.status.str ++ " -> " ++ target.str
              performed_by_role := role, timestamp := s.clock }) =
            taskTrace u.task_id s.auditLogs := by
          apply taskTrace_logAction_ne
          dsimp only
          exact fun hc => hid hc.symm
        rw [if_neg hid]
        refine ⟨?_, ?_, ?_⟩ <;> dsimp only <;> rw [heq]
        · exact h1
        · exact h2
        · exact h3
    · intro id hid
      dsimp only at hid ⊢
      have hid' : ∀ u ∈ s.tasks, u.task_id ≠ id := by
        intro u hu
        have hmem : (if u.task_id = tid then { u with status := target } else u) ∈
            replaceTask s.tasks tid (fun v => { v with status := target }) := by
          rw [replaceTask]
          exact List.mem_map_of_mem _ hu
        have hres := hid _ hmem
        by_cases hcase : u.task_id = tid
        · rw [if_pos hcase] at hres
          exact hres
        · rw [if_neg hcase] at hres
          exact hres
      rw [taskTrace_logAction_ne]
      · exact hout id hid'
      · dsimp only
        have := hid' t ht
        rw [htid] at this
        exact this

theorem Inv_runEsc {s : SystemState} (h : Inv s) (tid : String) :
    Inv (runEsc s tid) := by
  rcases runEsc_cases s tid with he | ⟨t, hfind, hval, he⟩
  · rw [he]; exact h
  · rw [he]
    obtain ⟨hnd, htr, hout⟩ := h
    have ht : t ∈ s.tasks := List.mem_of_find?_eq_some hfind
    have htid : t.task_id = tid := by
      have := List.find?_some hfind
      simpa using this
    refine ⟨?_, ?_, ?_⟩
    · dsimp only
      rw [map_id_replaceTask s.tasks tid (fun u =>
        { u with status := Status.ESCALATED,
                 assigned_role := nextRole t.assigned_role,
                 escalated_to := some (nextRole t.assigned_role) }) (fun u => rfl)]
      exact hnd
    · intro u' hu'
      dsimp only at hu'
      rw [replaceTask] at hu'
      obtain ⟨u, hu, rfl⟩ := List.mem_map.mp hu'
      obtain ⟨h1, h2, h3⟩ := htr u hu
      by_cases hid : u.task_id = tid
      · have hut : u = t := task_eq_of_id_eq hnd hu ht (by rw [hid, htid])
        have heq : taskTrace u.task_id (logAction s.auditLogs
            { task_id := tid
              action := "ESCALATED to " ++ nextRole t.assigned_role
              performed_by_role := nextRole t.assigned_role
              timestamp := s.clock }) =
            taskTrace u.task_id s.auditLogs ++ [Status.ESCALATED] := by
          apply taskTrace_logAction_some
          · exact hid.symm
          · exact obs_escalated (nextRole t.assigned_role)
        rw [if_pos hid]
        refine ⟨?_, ?_, ?_⟩ <;> dsimp only <;> rw [heq]
        · exact head?_append_some h1 _
        · exact chainOk_concat h2 h3 (hut ▸ hval)
        · exact List.getLast?_concat _
      · have heq : taskTrace u.task_id (logAction s.auditLogs
            { task_id := tid
              action := "ESCALATED to " ++ nextRole t.assigned_role
              performed_by_role := nextRole t.assigned_role
              timestamp := s.clock }) =
            taskTrace u.task_id s.auditLogs := by
          apply taskTrace_logAction_ne
          dsimp only
          exact fun hc => hid hc.symm
        rw [if_neg hid]
        refine ⟨?_, ?_, ?_⟩ <;> dsimp only <;> rw [heq]
        · exact h1
        · exact h2
        · exact h3
    · intro id hid
      dsimp only at hid ⊢
      have hid' : ∀ u ∈ s.tasks, u.task_id ≠ id := by
        intro u hu
        have hmem : (if u.task_id = tid then
            { u with status := Status.ESCALATED,
                     assigned_role := nextRole t.assigned_role,
                     escalated_to := some (nextRole t.assigned_role) } else u) ∈
            replaceTask s.tasks tid (fun v =>
              { v with status := Status.ESCALATED,
                       assigned_role := nextRole t.assigned_role,
                       escalated_to := some (nextRole t.assigned_role) }) := by
          rw [replaceTask]
          exact List.mem_map_of_mem _ hu
        have hres := hid _ hmem
        by_cases hcase : u.task_id = tid
        · rw [if_pos hcase] at hres
          exact hres
        · rw [if_neg hcase] at hres
          exact hres
      rw [taskTrace_logAction_ne]
      · exact hout id hid'
      · dsimp only
        have := hid' t ht
        rw [htid] at this
        exact this

theorem Inv_runGen {s : SystemState} (h : Inv s) (pid : String)
    (ids : List String) (hnodup : ids.Nodup)
    (hfresh : ∀ id ∈ ids, ∀ t ∈ s.tasks, t.task_id ≠ id)
    (hlen : (pendingRules s pid).length = ids.length) :
    Inv (runGen s pid ids) := by
  rcases runGen_cases s pid ids with he | he
  · rw [he]; exact h
  · rw [he]
    obtain ⟨hnd, htr, hout⟩ := h
    have hmapid : (newTasksOf s pid ids).map Task.task_id = ids :=
      map_id_newTasksOf s pid ids hlen
    have htraceNew : ∀ id : String, taskTrace id (newEntriesOf s pid ids) =
        ((newTasksOf s pid ids).filter (fun t => t.task_id = id)).map
          (fun _ => Status.CREATED) := by
      intro id
      exact taskTrace_createdEntries _ _ _
    refine ⟨?_, ?_, ?_⟩
    · dsimp only
      rw [List.map_append, hmapid, List.nodup_append]
      refine ⟨hnd, hnodup, ?_⟩
      intro a ha hb
      obtain ⟨t, ht, rfl⟩ := List.mem_map.mp ha
      exact hfresh _ hb t ht rfl
    · intro u hu
      dsimp only at hu ⊢
      refine ?_
      have hsplit := List.mem_append.mp hu
      rcases hsplit with hold | hnew
      · have hfilter : (newTasksOf s pid ids).filter
            (fun t => t.task_id = u.task_id) = [] := by
          rw [List.filter_eq_nil_iff]
          intro t ht
          simp only [decide_eq_true_eq]
          intro hcontra
          have hin : t.task_id ∈ ids := by
            rw [← hmapid]
            exact List.mem_map_of_mem _ ht
          exact hfresh _ hin u hold hcontra.symm
        obtain ⟨h1, h2, h3⟩ := htr u hold
        refine ⟨?_, ?_, ?_⟩ <;> dsimp only <;>
          rw [taskTrace_append, htraceNew, hfilter]
        · simpa using h1
        · simpa using h2
        · simpa using h3
      · have hidin : u.task_id ∈ ids := by
          rw [← hmapid]
          exact List.mem_map_of_mem _ hnew
        have hold0 : taskTrace u.task_id s.auditLogs = [] :=
          hout u.task_id (fun t ht => hfresh _ hidin t ht)
        have hnodupNew : ((newTasksOf s pid ids).map Task.task_id).Nodup := by
          rw [hmapid]
          exact hnodup
        have hfilter : (newTasksOf s pid ids).filter
            (fun t => t.task_id = u.task_id) = [u] :=
          filter_id_eq_single hnodupNew hnew
        have hstat := status_of_mem_newTasksOf hnew
        refine ⟨?_, ?_, ?_⟩ <;> dsimp only <;>
          rw [taskTrace_append, htraceNew, hfilter, hold0]
        · rfl
        · rfl
        · simp [hstat]
    · intro id hid
      dsimp only at hid ⊢
      have hidold : ∀ t ∈ s.tasks, t.task_id ≠ id := fun t ht =>
        hid t (List.mem_append.mpr (Or.inl ht))
      have hidnew : ∀ t ∈ newTasksOf s pid ids, t.task_id ≠ id := fun t ht =>
        hid t (List.mem_append.mpr (Or.inr ht))
      have hfilter : (newTasksOf s pid ids).filter
          (fun t => t.task_id = id) = [] := by
        rw [List.filter_eq_nil_iff]
        intro t ht
        simp only [decide_eq_true_eq]
        exact hidnew t ht
      rw [taskTrace_append, htraceNew, hfilter, hout id hidold]
      rfl

theorem Inv_step {s s' : SystemState} (h : Inv s) (hs : Step s s') : Inv s' := by
  cases hs with
  | ingest p => exact Inv_ingest h p
  | clarify c => exact Inv_runClarify h c
  | gen pid ids hnodup hfresh hlen => exact Inv_runGen h pid ids hnodup hfresh hlen
  | update tid target role => exact Inv_runUpdate h tid target role
  | escalate tid => exact Inv_runEsc h tid
  | query => exact h

theorem Inv_reachable {s : SystemState} (h : Reachable s) : Inv s := by
  induction h with
  | init => exact Inv_initState
  | step _ hs ih => exact Inv_step ih hs

/-- The five transition pairs allowed by the TRANSITIONS table. -/
def allowedPairs : List (Status × Status) :=
  [(.CREATED, .ASSIGNED), (.ASSIGNED, .IN_PROGRESS), (.IN_PROGRESS, .COMPLETED),
   (.IN_PROGRESS, .ESCALATED), (.ESCALATED, .ASSIGNED)]

theorem valid_to_escalated_iff (st : Status) :
    isValidTransition st .ESCALATED = true ↔ st = .IN_PROGRESS := by
  cases st <;> decide

/-- The string keys of the STATES object. -/
def statusStrings : List String :=
  ["CREATED", "ASSIGNED", "IN_PROGRESS", "COMPLETED", "ESCALATED"]

/-- A freshly generated sample task assigned to a Clerk. -/
def sampleTaskCreated : Task :=
  { task_id := "T1", policy_id := "POL-1", rule_id := "R1",
    task_name := "Execute rule R1", assigned_role := "Clerk",
    status := .CREATED, deadline := some "48 hours", escalated_to := none }

/-- A sample state holding one CREATED task and its creation entry. -/
def sampleState1 : SystemState :=
  { policies := [], tasks := [sampleTaskCreated],
    auditLogs := [{ task_id := "T1", action := "CREATED",
                    performed_by_role := "Clerk", timestamp := 0 }],
    clock := 1 }

/-- A sample Admin task in progress. -/
def sampleTaskAdmin : Task :=
  { task_id := "T9", policy_id := "POL-1", rule_id := "R9",
    task_name := "Execute rule R9", assigned_role := "Admin",
    status := .IN_PROGRESS, deadline := none, escalated_to := none }

/-- A sample state holding one IN_PROGRESS task assigned to Admin. -/
def sampleStateAdmin : SystemState :=
  { policies := [], tasks := [sampleTaskAdmin], auditLogs := [], clock := 0 }

/-- A sample Clerk task in progress. -/
def sampleTaskClerk : Task :=
  { task_id := "T2", policy_id := "POL-1", rule_id := "R2",
    task_name := "Execute rule R2", assigned_role := "Clerk",
    status := .IN_PROGRESS, deadline := none, escalated_to := none }

/-- A sample state holding one IN_PROGRESS task assigned to Clerk. -/
def sampleStateClerk : SystemState :=
  { policies := [], tasks := [sampleTaskClerk], auditLogs := [], clock := 0 }

/-- Claim C2: a status transition is allowed if and only if the pair
is one of CREATED to ASSIGNED, ASSIGNED to IN_PROGRESS, IN_PROGRESS to
COMPLETED, IN_PROGRESS to ESCALATED, ESCALATED to ASSIGNED; COMPLETED
has no outgoing transitions; and a request for any other pair fails
with InvalidTransition naming the current and the requested status. -/
theorem C2_transition_table :
    (∀ c n : Status, isValidTransition c n = true ↔ (c, n) ∈ allowedPairs) ∧
    TRANSITIONS Status.COMPLETED = [] ∧
    (∀ (s : SystemState) (tid : String) (target : Status) (role : String)
      (t : Task),
      s.tasks.find? (fun u => u.task_id = tid) = some t →
      isValidTransition t.status target = false →
      updateStatus s tid target role =
        .error (.InvalidTransition t.status.str target.str)) := by
  refine ⟨?_, rfl, ?_⟩
  · intro c n
    cases c <;> cases n <;> decide
  · intro s tid target role t hfind hval
    unfold updateStatus
    rw [hfind]
    simp [hval]

/-- Witness for C2 at concrete inputs: CREATED to ASSIGNED is allowed,
and requesting CREATED to COMPLETED fails with InvalidTransition
naming both statuses. -/
theorem C2_transition_table_witness :
    isValidTransition .CREATED .ASSIGNED = true ∧
    updateStatus sampleState1 "T1" .COMPLETED "Clerk" =
      .error (.InvalidTransition "CREATED" "COMPLETED") :=
  ⟨(C2_transition_table.1 .CREATED .ASSIGNED).mpr (by decide),
   C2_transition_table.2.2 sampleState1 "T1" .COMPLETED "Clerk"
     sampleTaskCreated (by decide) (by decide)⟩

/-- Counterexample to claim C10: isValidTransition is not total on
arbitrary string pairs — "toString" is outside the five defined
statuses, yet TRANSITIONS["toString"] resolves through the prototype
chain to Object.prototype.toString, which is neither null nor
undefined, so the optional chaining proceeds and the includes call
throws a TypeError instead of returning a falsy value. -/
theorem C10_prototype_key_counterexample :
    "toString" ∉ statusStrings ∧
    isValidTransitionStr "toString" "ASSIGNED" = none :=
  ⟨by decide, by decide⟩

/-- Claim C10 (amended): for a currentState outside the five defined
statuses that is not an Object.prototype property name, the lookup is
undefined and the optional chaining yields a falsy result; for a
currentState naming an Object.prototype property (constructor,
toString, valueOf, hasOwnProperty, the legacy accessors, ...), the
lookup resolves through the prototype chain and the includes call
throws a TypeError.  Either way, an unknown status never admits a
transition. -/
theorem C10_unknown_status_admits_nothing :
    ∀ currentState nextState : String,
      currentState ∉ statusStrings →
      ((currentState ∉ objectProtoProps →
        isValidTransitionStr currentState nextState = some false) ∧
       (currentState ∈ objectProtoProps →
        isValidTransitionStr currentState nextState = none) ∧
       isValidTransitionStr currentState nextState ≠ some true) := by
  intro c n hc
  simp only [statusStrings, List.mem_cons, List.not_mem_nil, or_false,
    not_or] at hc
  obtain ⟨h1, h2, h3, h4, h5⟩ := hc
  have hlook : TRANSITIONS_lookup c =
      if c ∈ objectProtoProps then .inherited else .absent := by
    simp [TRANSITIONS_lookup, h1, h2, h3, h4, h5]
  by_cases hp : c ∈ objectProtoProps
  · refine ⟨fun hcon => absurd hp hcon, fun _ => ?_, ?_⟩
    · simp [isValidTransitionStr, hlook, hp]
    · simp [isValidTransitionStr, hlook, hp]
  · refine ⟨fun _ => ?_, fun hcon => absurd hcon hp, ?_⟩
    · simp [isValidTransitionStr, hlook, hp]
    · simp [isValidTransitionStr, hlook, hp]

/-- Witness for amended C10: the frontend status "PENDING" is neither
a state of the table nor a prototype property and admits no
transition, while the prototype key "constructor" makes the call
throw. -/
theorem C10_unknown_status_admits_nothing_witness :
    isValidTransitionStr "PENDING" "ASSIGNED" = some false ∧
    isValidTransitionStr "constructor" "ASSIGNED" = none :=
  ⟨(C10_unknown_status_admits_nothing "PENDING" "ASSIGNED"
      (by decide)).1 (by decide),
   (C10_unknown_status_admits_nothing "constructor" "ASSIGNED"
      (by decide)).2.1 (by decide)⟩

/-- Counterexample to claim C3: escalating a task assigned to Admin
does not fail with NoFurtherEscalation — the nextRole ternary of
RoleBasedTasks.tsx maps Admin to Admin, the escalation succeeds, and
the task stays assigned to Admin. -/
theorem C3_escalation_ceiling_counterexample :
    nextRole "Admin" = "Admin" ∧
    isOkResult (escalateTask sampleStateAdmin "T9") = true ∧
    ((runEsc sampleStateAdmin "T9").tasks.find?
        (fun u => u.task_id = "T9")).map Task.assigned_role = some "Admin" := by
  refine ⟨rfl, by decide, by decide⟩

/-- Claim C3 (amended): escalation maps Clerk to Officer and Officer
to Admin; escalating a task assigned to Admin succeeds as well and
yields Admin again (the code never fails with NoFurtherEscalation),
and in general a successful escalation assigns nextRole of the
previous assigned role. -/
theorem C3_escalation_role_step :
    nextRole "Clerk" = "Officer" ∧ nextRole "Officer" = "Admin" ∧
    nextRole "Admin" = "Admin" ∧
    (∀ (s : SystemState) (tid : String) (t : Task),
      s.tasks.find? (fun u => u.task_id = tid) = some t →
      t.status = Status.IN_PROGRESS →
      ∃ s', escalateTask s tid = .ok s' ∧
        (s'.tasks.find? (fun u => u.task_id = tid)).map Task.assigned_role =
          some (nextRole t.assigned_role)) := by
  refine ⟨rfl, rfl, rfl, ?_⟩
  intro s tid t hfind hst
  have hv : isValidTransition t.status .ESCALATED = true := by
    rw [hst]
    decide
  unfold escalateTask
  rw [hfind]
  simp only [hv, if_true]
  refine ⟨_, rfl, ?_⟩
  dsimp only
  rw [find?_replaceTask s.tasks tid (fun u =>
    { u with status := Status.ESCALATED,
             assigned_role := nextRole t.assigned_role,
             escalated_to := some (nextRole t.assigned_role) })
    (fun u => rfl), hfind]
  rfl

/-- Witness for amended C3: escalating the Clerk task yields assigned
role Officer. -/
theorem C3_escalation_role_step_witness :
    ∃ s', escalateTask sampleStateClerk "T2" = .ok s' ∧
      (s'.tasks.find? (fun u => u.task_id = "T2")).map Task.assigned_role =
        some (nextRole "Clerk") :=
  C3_escalation_role_step.2.2.2 sampleStateClerk "T2" sampleTaskClerk
    (by decide) (by decide)

/-- Claim C4: escalation succeeds exactly when the task is
IN_PROGRESS; escalating a task already in ESCALATED fails and leaves
the state unchanged; a successful escalation sets status ESCALATED and
records the target role as both escalated_to and the new assigned
role. -/
theorem C4_escalation_guard :
    ∀ (s : SystemState) (tid : String) (t : Task),
      s.tasks.find? (fun u => u.task_id = tid) = some t →
      (isOkResult (escalateTask s tid) = true ↔ t.status = Status.IN_PROGRESS) ∧
      (t.status = Status.ESCALATED → runEsc s tid = s) ∧
      (t.status = Status.IN_PROGRESS →
        ∃ s', escalateTask s tid = .ok s' ∧
          s'.tasks.find? (fun u => u.task_id = tid) =
            some { t with
                    status := Status.ESCALATED
                    assigned_role := nextRole t.assigned_role
                    escalated_to := some (nextRole t.assigned_role) }) := by
  intro s tid t hfind
  refine ⟨?_, ?_, ?_⟩
  · unfold escalateTask
    rw [hfind]
    by_cases hv : isValidTransition t.status .ESCALATED
    · simp only [hv, if_true]
      simp only [isOkResult, true_iff]
      exact (valid_to_escalated_iff t.status).mp hv
    · simp only [hv]
      simp only [Bool.false_eq_true, if_false, isOkResult, false_iff]
      intro hst
      exact hv ((valid_to_escalated_iff t.status).mpr hst)
  · intro hst
    unfold runEsc escalateTask
    rw [hfind]
    dsimp only
    rw [hst]
    simp [isValidTransition, TRANSITIONS]
  · intro hst
    have hv : isValidTransition t.status .ESCALATED = true := by
      rw [hst]
      decide
    unfold escalateTask
    rw [hfind]
    simp only [hv, if_true]
    refine ⟨_, rfl, ?_⟩
    dsimp only
    rw [find?_replaceTask s.tasks tid (fun u =>
      { u with status := Status.ESCALATED,
               assigned_role := nextRole t.assigned_role,
               escalated_to := some (nextRole t.assigned_role) })
      (fun u => rfl), hfind]
    rfl

/-- Witness for C4: the Clerk task in progress escalates successfully
into ESCALATED with Officer recorded in both role fields. -/
theorem C4_escalation_guard_witness :
    (isOkResult (escalateTask sampleStateClerk "T2") = true ↔
      sampleTaskClerk.status = Status.IN_PROGRESS) ∧
    ∃ s', escalateTask sampleStateClerk "T2" = .ok s' ∧
      s'.tasks.find? (fun u => u.task_id = "T2") =
        some { sampleTaskClerk with
                status := Status.ESCALATED
                assigned_role := nextRole sampleTaskClerk.assigned_role
                escalated_to := some (nextRole sampleTaskClerk.assigned_role) } := by
  have h := C4_escalation_guard sampleStateClerk "T2" sampleTaskClerk (by decide)
  exact ⟨h.1, h.2.2 (by decide)⟩

/-- Claim C1: task generation on a policy with an ambiguous rule
creates no tasks and fails with PolicyStillAmbiguous naming the
unresolved rule identifiers; it succeeds exactly when every rule of
the policy has its ambiguity flag cleared.  The frontend submit gate
of ReviewInteractive.tsx likewise only proceeds when the ambiguity
list is empty. -/
theorem C1_generation_gate :
    (∀ ambiguities : List String,
      submitAllowed ambiguities = true ↔ ambiguities = []) ∧
    (∀ (s : SystemState) (pid : String) (p : Policy) (ids : List String),
      s.policies.find? (fun q => q.policy_id = pid) = some p →
      ((∃ r ∈ p.rules, r.ambiguity_flag = true) →
        generateTasks s pid ids =
          .error (.PolicyStillAmbiguous
            ((p.rules.filter (fun r => r.ambiguity_flag)).map Rule.rule_id)) ∧
        runGen s pid ids = s) ∧
      (isOkResult (generateTasks s pid ids) = true ↔
        ∀ r ∈ p.rules, r.ambiguity_flag = false)) := by
  constructor
  · intro ambs
    simp [submitAllowed, List.length_eq_zero]
  · intro s pid p ids hfind
    have hkey : ((p.rules.filter (fun r => r.ambiguity_flag)).map
        Rule.rule_id).isEmpty = true ↔ ∀ r ∈ p.rules, r.ambiguity_flag = false := by
      rw [List.isEmpty_iff, List.map_eq_nil_iff, List.filter_eq_nil_iff]
      constructor
      · intro h r hr
        have := h r hr
        simpa using this
      · intro h r hr
        simp [h r hr]
    refine ⟨?_, ?_⟩
    · rintro ⟨r, hr, hflag⟩
      have hne : ((p.rules.filter (fun r => r.ambiguity_flag)).map
          Rule.rule_id).isEmpty = false := by
        cases hcase : ((p.rules.filter (fun r => r.ambiguity_flag)).map
            Rule.rule_id).isEmpty with
        | false => rfl
        | true =>
          rw [hkey.mp hcase r hr] at hflag
          cases hflag
      refine ⟨?_, ?_⟩
      · unfold generateTasks
        rw [hfind]
        simp [hne]
      · unfold runGen generateTasks
        rw [hfind]
        simp [hne]
    · unfold generateTasks
      rw [hfind]
      cases hcase : ((p.rules.filter (fun r => r.ambiguity_flag)).map
          Rule.rule_id).isEmpty with
      | true =>
        simp only [hcase, if_true, isOkResult, true_iff]
        exact hkey.mp hcase
      | false =>
        simp only [hcase, Bool.false_eq_true, if_false, isOkResult, false_iff]
        intro hall
        have := hkey.mpr hall
        rw [hcase] at this
        cases this

/-- A resolved sample rule. -/
def ruleResolved : Rule :=
  { rule_id := "R1", action := "Verify applicant documents",
    conditions := ["application received"], responsible_role := "Officer",
    ambiguity_flag := false, ambiguity_reason := "",
    deadline := some "48 hours" }

/-- An ambiguous sample rule. -/
def ruleAmbiguous : Rule :=
  { rule_id := "R2", action := "Notify immediately", conditions := [],
    responsible_role := "", ambiguity_flag := true,
    ambiguity_reason := "Unclear responsibility", deadline := none }

/-- A sample policy with one resolved and one ambiguous rule
(Scenario B of the specification). -/
def policyAmb : Policy :=
  { policy_id := "POL-1", rules := [ruleResolved, ruleAmbiguous] }

/-- A sample state holding the partially ambiguous policy. -/
def sampleStateAmb : SystemState :=
  { policies := [policyAmb], tasks := [], auditLogs := [], clock := 0 }

/-- Witness for C1 at Scenario B: generation on POL-1 fails with
PolicyStillAmbiguous naming R2 and changes nothing. -/
theorem C1_generation_gate_witness :
    generateTasks sampleStateAmb "POL-1" ["T1", "T2"] =
      .error (.PolicyStillAmbiguous ["R2"]) ∧
    runGen sampleStateAmb "POL-1" ["T1", "T2"] = sampleStateAmb := by
  have h := (C1_generation_gate.2 sampleStateAmb "POL-1" policyAmb
    ["T1", "T2"] (by decide)).1 ⟨ruleAmbiguous, by decide, rfl⟩
  exact ⟨h.1, h.2⟩

/-- Claim C7: a successful status transition appends exactly one audit
entry carrying the action text STATUS_UPDATE with the old and the new
status and the acting role; a failed transition leaves the state, and
so the audit log, unchanged. -/
theorem C7_transition_audit :
    ∀ (s : SystemState) (tid : String) (target : Status) (role : String),
      (∀ s', updateStatus s tid target role = .ok s' →
        ∃ t, s.tasks.find? (fun u => u.task_id = tid) = some t ∧
          s'.auditLogs = s.auditLogs ++
            [{ task_id := tid
               action := "STATUS_UPDATE: " ++ t.status.str ++ " -> " ++ target.str
               performed_by_role := role
               timestamp := s.clock }]) ∧
      (∀ e, updateStatus s tid target role = .error e →
        runUpdate s tid target role = s) := by
  intro s tid target role
  constructor
  · intro s' hok
    unfold updateStatus at hok
    cases hfind : s.tasks.find? (fun u => u.task_id = tid) with
    | none =>
      rw [hfind] at hok
      cases hok
    | some t =>
      rw [hfind] at hok
      dsimp only at hok
      by_cases hv : isValidTransition t.status target
      · by_cases hr : requiredRole t = role
        · simp only [hv, if_true, hr, if_pos] at hok
          have hs' := Except.ok.inj hok
          refine ⟨t, rfl, ?_⟩
          rw [← hs']
          rfl
        · simp [hv, hr] at hok
      · simp [hv] at hok
  · intro e herr
    unfold runUpdate
    rw [herr]

/-- Witness for C7: advancing the sample CREATED task to ASSIGNED as
its Clerk appends the matching STATUS_UPDATE entry. -/
theorem C7_transition_audit_witness :
    ∃ t, sampleState1.tasks.find? (fun u => u.task_id = "T1") = some t ∧
      (runUpdate sampleState1 "T1" .ASSIGNED "Clerk").auditLogs =
        sampleState1.auditLogs ++
          [{ task_id := "T1"
             action := "STATUS_UPDATE: " ++ t.status.str ++ " -> " ++
               Status.ASSIGNED.str
             performed_by_role := "Clerk"
             timestamp := sampleState1.clock }] := by
  have h := (C7_transition_audit sampleState1 "T1" .ASSIGNED "Clerk").1
    (runUpdate sampleState1 "T1" .ASSIGNED "Clerk") rfl
  exact h

/-- The first appended sample entry. -/
def entryA : AuditLogEntry :=
  { task_id := "T1", action := "CREATED", performed_by_role := "Clerk",
    timestamp := 0 }

/-- The second appended sample entry. -/
def entryB : AuditLogEntry :=
  { task_id := "T1", action := "STATUS_UPDATE: CREATED -> ASSIGNED",
    performed_by_role := "Clerk", timestamp := 1 }

/-- Counterexample to claim C8: after appending entryA then entryB,
the query returns them in insertion order, not reversed — the most
recently appended entry is last, not first. -/
theorem C8_newest_first_counterexample :
    getAuditLogs (logAction (logAction [] entryA) entryB) =
      [entryA, entryB] ∧
    getAuditLogs (logAction (logAction [] entryA) entryB) ≠
      List.reverse [entryA, entryB] :=
  ⟨rfl, by decide⟩

/-- Claim C8 (amended): querying the audit log returns its entries in
insertion order — for every sequence of appended entries the query
result equals the append order, with the most recently appended entry
last. -/
theorem C8_query_insertion_order :
    ∀ entries : List AuditLogEntry,
      getAuditLogs (entries.foldl logAction []) = entries := by
  intro entries
  have h : ∀ acc : List AuditLogEntry,
      entries.foldl logAction acc = acc ++ entries := by
    induction entries with
    | nil =>
      intro acc
      simp
    | cons e es ih =>
      intro acc
      rw [List.foldl_cons, ih, logAction]
      simp
  simpa [getAuditLogs] using h []

theorem findRule_rule_id {ps : List Policy} {pid rid : String} {r : Rule}
    (h : findRule ps pid rid = some r) : r.rule_id = rid := by
  unfold findRule at h
  cases hp : ps.find? (fun p => p.policy_id = pid) with
  | none =>
    rw [hp] at h
    cases h
  | some p =>
    rw [hp] at h
    have := List.find?_some h
    simpa using this

theorem find?_updateRuleIn (ps : List Policy) (pid rid : String) (r' : Rule) :
    (updateRuleIn ps pid rid r').find? (fun p => p.policy_id = pid) =
      (ps.find? (fun p => p.policy_id = pid)).map (fun p =>
        { p with rules := p.rules.map (fun r => if r.rule_id = rid then r' else r) }) := by
  induction ps with
  | nil => rfl
  | cons p ps ih =>
    by_cases h : p.policy_id = pid
    · simp [updateRuleIn, List.find?_cons, h]
    · simp only [updateRuleIn, List.map_cons] at ih ⊢
      rw [if_neg h, List.find?_cons_of_neg _ (by simpa using h),
        List.find?_cons_of_neg _ (by simpa using h), ih]

theorem find?_ruleReplace (rs : List Rule) (rid : String) (r' : Rule)
    (hr : r'.rule_id = rid) :
    (rs.map (fun r => if r.rule_id = rid then r' else r)).find?
      (fun r => r.rule_id = rid) =
      (rs.find? (fun r => r.rule_id = rid)).map (fun _ => r') := by
  induction rs with
  | nil => rfl
  | cons r rs ih =>
    by_cases h : r.rule_id = rid
    · simp [List.find?_cons, h, hr]
    · rw [List.map_cons, if_neg h,
        List.find?_cons_of_neg _ (by simpa using h),
        List.find?_cons_of_neg _ (by simpa using h), ih]

theorem findRule_update {ps : List Policy} {pid rid : String} {r : Rule}
    (r' : Rule) (hfound : findRule ps pid rid = some r)
    (hr : r'.rule_id = rid) :
    findRule (updateRuleIn ps pid rid r') pid rid = some r' := by
  unfold findRule at hfound ⊢
  rw [find?_updateRuleIn]
  cases hp : ps.find? (fun p => p.policy_id = pid) with
  | none =>
    rw [hp] at hfound
    cases hfound
  | some p =>
    rw [hp] at hfound
    dsimp only at hfound
    simp only [Option.map_some']
    rw [find?_ruleReplace p.rules rid r' hr, hfound]
    rfl

theorem matchesStored_clarifiedRule (r : Rule) (c : ClarificationData) :
    matchesStored (clarifiedRule r c) c = true := by
  unfold matchesStored clarifiedRule
  cases c.clarified_deadline <;> cases c.clarified_conditions <;> simp

/-- The number of CLARIFIED audit entries recorded against a policy
identifier. -/
def countClarified (pid : String) (log : List AuditLogEntry) : Nat :=
  (log.filter (fun e => e.task_id = pid && e.action = "CLARIFIED")).length

theorem countClarified_append_match (pid role : String)
    (log : List AuditLogEntry) (ts : Nat) :
    countClarified pid (logAction log
      { task_id := pid, action := "CLARIFIED", performed_by_role := role,
        timestamp := ts }) = countClarified pid log + 1 := by
  unfold countClarified logAction
  rw [List.filter_append]
  simp

/-- Claim C5: applying the same ClarificationRequest twice in a row is
idempotent — the second application succeeds and returns the same rule
and the identical state (not an AlreadyResolvedConflict, because the
stored values match the incoming ones), and exactly one CLARIFIED
audit entry is recorded for the pair, not two. -/
theorem C5_clarification_idempotent :
    ∀ (s : SystemState) (c : ClarificationData) (r : Rule),
      findRule s.policies c.policy_id c.rule_id = some r →
      r.ambiguity_flag = true →
      ∃ r₁ s₁, applyClarification c s = .ok (r₁, s₁) ∧
        applyClarification c s₁ = .ok (r₁, s₁) ∧
        countClarified c.policy_id s₁.auditLogs =
          countClarified c.policy_id s.auditLogs + 1 ∧
        (countClarified c.policy_id s.auditLogs = 0 →
          countClarified c.policy_id s₁.auditLogs = 1) := by
  intro s c r hfind hflag
  refine ⟨clarifiedRule r c,
    { s with
      policies := updateRuleIn s.policies c.policy_id c.rule_id (clarifiedRule r c)
      auditLogs := logAction s.auditLogs
        { task_id := c.policy_id, action := "CLARIFIED",
          performed_by_role := c.clarified_responsible_role,
          timestamp := s.clock }
      clock := s.clock + 1 }, ?_, ?_, ?_, ?_⟩
  · unfold applyClarification
    rw [hfind]
    simp [hflag]
  · unfold applyClarification
    dsimp only
    have h1 : r.rule_id = c.rule_id := findRule_rule_id hfind
    have hrid : (clarifiedRule r c).rule_id = c.rule_id := h1
    rw [findRule_update (clarifiedRule r c) hfind hrid]
    have hfl : (clarifiedRule r c).ambiguity_flag = false := rfl
    simp [hfl, matchesStored_clarifiedRule r c]
  · dsimp only
    exact countClarified_append_match c.policy_id c.clarified_responsible_role
      s.auditLogs s.clock
  · intro h0
    dsimp only
    rw [countClarified_append_match c.policy_id c.clarified_responsible_role
      s.auditLogs s.clock, h0]

/-- A sample state holding the still ambiguous policy rule R2. -/
def sampleStateClarify : SystemState :=
  { policies := [policyAmb], tasks := [], auditLogs := [], clock := 0 }

/-- The sample clarification for rule R2 (Scenario A shape). -/
def clarificationR2 : ClarificationData :=
  { policy_id := "POL-1", rule_id := "R2",
    clarified_responsible_role := "Officer",
    clarified_deadline := some "48 hours",
    clarified_conditions := none }

/-- Witness for C5: clarifying the ambiguous rule R2 twice yields the
same rule and state, with exactly one CLARIFIED entry. -/
theorem C5_clarification_idempotent_witness :
    ∃ r₁ s₁, applyClarification clarificationR2 sampleStateClarify = .ok (r₁, s₁) ∧
      applyClarification clarificationR2 s₁ = .ok (r₁, s₁) ∧
      countClarified "POL-1" s₁.auditLogs =
        countClarified "POL-1" sampleStateClarify.auditLogs + 1 ∧
      (countClarified "POL-1" sampleStateClarify.auditLogs = 0 →
        countClarified "POL-1" s₁.auditLogs = 1) :=
  C5_clarification_idempotent sampleStateClarify clarificationR2 ruleAmbiguous
    (by decide) rfl

/-- Claim C6: for every reachable state and every task, the sequence
of statuses recorded for that task in the audit log is a walk of the
TRANSITIONS table starting at CREATED. -/
theorem C6_audit_walk :
    ∀ s : SystemState, Reachable s → ∀ t ∈ s.tasks,
      (taskTrace t.task_id s.auditLogs).head? = some Status.CREATED ∧
      chainOk (taskTrace t.task_id s.auditLogs) = true := by
  intro s hs t ht
  obtain ⟨_, htr, _⟩ := Inv_reachable hs
  obtain ⟨h1, h2, _⟩ := htr t ht
  exact ⟨h1, h2⟩

/-- A fully resolved one-rule policy for the reachability witness. -/
def policyW : Policy := { policy_id := "POL-7", rules := [ruleResolved] }

/-- Witness pipeline, first step: ingest the policy. -/
def stepW1 : SystemState := ingestPolicy initState policyW

/-- Witness pipeline, second step: generate the task T7. -/
def stepW2 : SystemState := runGen stepW1 "POL-7" ["T7"]

/-- Witness pipeline, third step: assign T7 to its Officer. -/
def stepW3 : SystemState := runUpdate stepW2 "T7" .ASSIGNED "Officer"

theorem reachable_stepW3 : Reachable stepW3 :=
  Reachable.step
    (Reachable.step
      (Reachable.step Reachable.init (Step.ingest initState policyW))
      (Step.gen stepW1 "POL-7" ["T7"] (by decide) (by decide) (by decide)))
    (Step.update stepW2 "T7" .ASSIGNED "Officer")

/-- The task living in the witness state. -/
def taskW : Task :=
  { task_id := "T7", policy_id := "POL-7", rule_id := "R1",
    task_name := "Execute rule R1", assigned_role := "Officer",
    status := .ASSIGNED, deadline := some "48 hours", escalated_to := none }

/-- Witness for C6: in the concrete three-step run, the recorded trace
of T7 starts at CREATED and is a valid walk. -/
theorem C6_audit_walk_witness :
    (taskTrace taskW.task_id stepW3.auditLogs).head? = some Status.CREATED ∧
    chainOk (taskTrace taskW.task_id stepW3.auditLogs) = true :=
  C6_audit_walk stepW3 reachable_stepW3 taskW (by decide)

/-- The second resolved sample rule. -/
def ruleResolved2 : Rule := { ruleResolved with rule_id := "R2" }

/-- A sample policy with two resolved rules. -/
def policyTwo : Policy :=
  { policy_id := "POL-9", rules := [ruleResolved, ruleResolved2] }

/-- A sample state holding the two-rule policy. -/
def sampleStateTwo : SystemState :=
  { policies := [policyTwo], tasks := [], auditLogs := [], clock := 0 }

/-- Counterexample to claim C9: a single generation run on a two-rule
policy appends two audit entries at once, so a pipeline operation does
not always append exactly one entry. -/
theorem C9_exactly_one_counterexample :
    ¬ ((runGen sampleStateTwo "POL-9" ["T1", "T2"]).auditLogs =
        sampleStateTwo.auditLogs ∨
      ∃ e, (runGen sampleStateTwo "POL-9" ["T1", "T2"]).auditLogs =
        sampleStateTwo.auditLogs ++ [e]) := by
  have hlen : (runGen sampleStateTwo "POL-9" ["T1", "T2"]).auditLogs.length = 2 := by
    decide
  rintro (h | ⟨e, h⟩)
  · rw [h] at hlen
    simp [sampleStateTwo] at hlen
  · rw [h] at hlen
    simp [sampleStateTwo] at hlen

/-- Claim C9 (amended): the audit log is append-only — every pipeline
step either leaves the log unchanged or appends new entries at its
end, one per recorded mutation event (a generation run appends one per
generated task); no existing entry is ever modified, removed, or moved
from its position. -/
theorem C9_append_only :
    ∀ s s' : SystemState, Step s s' →
      (∃ added, s'.auditLogs = s.auditLogs ++ added) ∧
      (∀ i, i < s.auditLogs.length →
        s'.auditLogs[i]? = s.auditLogs[i]?) := by
  intro s s' hs
  have hext : ∃ added, s'.auditLogs = s.auditLogs ++ added := by
    cases hs with
    | ingest p => exact ⟨[], by simp [ingestPolicy]⟩
    | clarify c =>
      rcases runClarify_cases s c with he | ⟨ps', he⟩
      · exact ⟨[], by rw [he]; simp⟩
      · exact ⟨[{ task_id := c.policy_id, action := "CLARIFIED",
                  performed_by_role := c.clarified_responsible_role,
                  timestamp := s.clock }], by rw [he]; rfl⟩
    | gen pid ids hnodup hfresh hlen =>
      rcases runGen_cases s pid ids with he | he
      · exact ⟨[], by rw [he]; simp⟩
      · exact ⟨newEntriesOf s pid ids, by rw [he]⟩
    | update tid target role =>
      rcases runUpdate_cases s tid target role with he | ⟨t, _, _, he⟩
      · exact ⟨[], by rw [he]; simp⟩
      · exact ⟨[{ task_id := tid,
                  action := "STATUS_UPDATE: " ++ t.status.str ++ " -> " ++
                    target.str,
                  performed_by_role := role,
                  timestamp := s.clock }], by rw [he]; rfl⟩
    | escalate tid =>
      rcases runEsc_cases s tid with he | ⟨t, _, _, he⟩
      · exact ⟨[], by rw [he]; simp⟩
      · exact ⟨[{ task_id := tid,
                  action := "ESCALATED to " ++ nextRole t.assigned_role,
                  performed_by_role := nextRole t.assigned_role,
                  timestamp := s.clock }], by rw [he]; rfl⟩
    | query => exact ⟨[], by simp⟩
  obtain ⟨added, he⟩ := hext
  refine ⟨⟨added, he⟩, ?_⟩
  intro i hi
  rw [he]
  exact List.getElem?_append_left hi

/-- Witness for amended C9: the concrete assignment step extends the
sample log and preserves the existing entry positions. -/
theorem C9_append_only_witness :
    (∃ added, (runUpdate sampleState1 "T1" .ASSIGNED "Clerk").auditLogs =
      sampleState1.auditLogs ++ added) ∧
    (∀ i, i < sampleState1.auditLogs.length →
      (runUpdate sampleState1 "T1" .ASSIGNED "Clerk").auditLogs[i]? =
        sampleState1.auditLogs[i]?) :=
  C9_append_only sampleState1 _ (Step.update sampleState1 "T1" .ASSIGNED "Clerk")

end PolicyExec
